import Mathlib

/-!
# GravitumTest: user CRUD service

A shallow embedding of the request handler (`internal/handler/user_handler.go`),
the PostgreSQL repository (`internal/repository/postgres/user_repository.go`)
and the integer helper of the configuration loader (`internal/config/config.go`).

Conventions of the embedding

* A Go `error` value is an `Option Err`: `none` is `nil`.
* A method with a pointer receiver argument `*domain.User` returns the record
  as the callee left it, next to its error.
* The database handle `*sql.DB` and the repository behind the handler are
  explicit state machines: every call takes the current state and returns the
  next one.
* The handler additionally returns the list of repository calls it made, in
  order, so that "no repository method is invoked" is the statement that this
  list is empty.
-/

namespace GravitumTest

/-! ## Errors -/

/-- Go error values, as far as the service tells them apart: the sentinel
`sql.ErrNoRows`, an error with a text of its own, and an error that wraps
another one (`fmt.Errorf` with `%w`). -/
inductive Err where
  | ErrNoRows : Err
  | other (text : String) : Err
  | wrap (text : String) (inner : Err) : Err
  deriving DecidableEq, Repr

namespace Err

/-- The method `err.Error()`. -/
def Error : Err → String
  | ErrNoRows => "sql: no rows in result set"
  | other text => text
  | wrap text _ => text

/-- The test `errors.Is(err, sql.ErrNoRows)`: the error is the sentinel or
wraps it at some depth. An error that merely has the same text is not. -/
def isErrNoRows : Err → Bool
  | ErrNoRows => true
  | other _ => false
  | wrap _ inner => isErrNoRows inner

end Err

/-! ## Domain -/

/-- Modelled from the spec: the package `internal/domain` is not among the
sources. The spec gives the record as the JSON object with the fields `id`
(integer), `first_name`, `last_name` and `email` (strings); the handler assigns
the result of `strconv.ParseInt(_, 10, 64)` to `ID`, so `ID` is an `int64`. -/
structure User where
  ID : Int
  FirstName : String
  LastName : String
  Email : String
  deriving DecidableEq, Repr

/-! ## strconv.ParseInt(s, 10, 64) -/

/-- The two causes carried by a `*strconv.NumError`. -/
inductive NumError where
  | ErrSyntax
  | ErrRange
  deriving DecidableEq, Repr

/-- The constant `maxUint64`. -/
def maxUint64 : Nat := 2 ^ 64 - 1

/-- The function `lower(c)` of strconv: `c | ('x' - 'X')`. -/
def lower (c : Nat) : Nat := c ||| 0x20

/-- The digit loop of `strconv.ParseUint(s, 10, 64)` from the accumulator `n`
on. `cutoff` is `maxUint64/10 + 1` and `maxVal` is `1<<64 - 1`. The loop runs
over the bytes of `s`; here it runs over the characters, which takes the same
branch everywhere: a character above U+007F is a run of bytes of value 0x80 or
more, and the first of them already falls to `default`. Arithmetic on `uint64`
is taken modulo 2^64. The underscore case needs `base == 0` and is absent. -/
def parseUintLoop : List Char → Nat → Nat × Option NumError
  | [], n => (n, none)
  | ch :: rest, n =>
    let c := ch.toNat
    let cutoff := maxUint64 / 10 + 1
    let maxVal := maxUint64
    let digit : Option Nat :=
      if 48 ≤ c ∧ c ≤ 57 then some (c - 48)
      else if 97 ≤ lower c ∧ lower c ≤ 122 then some (lower c - 97 + 10)
      else none
    match digit with
    | none => (0, some NumError.ErrSyntax)
    | some d =>
      if d ≥ 10 then (0, some NumError.ErrSyntax)
      else if n ≥ cutoff then (maxVal, some NumError.ErrRange)
      else
        let n10 := (n * 10) % 2 ^ 64
        let n1 := (n10 + d) % 2 ^ 64
        if n1 < n10 ∨ n1 > maxVal then (maxVal, some NumError.ErrRange)
        else parseUintLoop rest n1

/-- The function `strconv.ParseUint(s, 10, 64)`. -/
def ParseUint (s : List Char) : Nat × Option NumError :=
  if s = [] then (0, some NumError.ErrSyntax)
  else parseUintLoop s 0

/-- The conversion `int64(un)` of a `uint64`. -/
def int64OfUint64 (un : Nat) : Int :=
  if un % 2 ^ 64 < 2 ^ 63 then (un % 2 ^ 64 : Nat) else (un % 2 ^ 64 : Nat) - 2 ^ 64

/-- The negation `-n` of an `int64`, which wraps at the least value. -/
def negInt64 (n : Int) : Int :=
  if n = -(2 ^ 63) then n else -n

/-- The function `strconv.ParseInt(s, 10, 64)`: the value and the error. -/
def ParseInt (s : String) : Int × Option NumError :=
  match s.toList with
  | [] => (0, some NumError.ErrSyntax)
  | c0 :: tl =>
    let neg := c0 = '-'
    let digits := if c0 = '+' then tl else if c0 = '-' then tl else c0 :: tl
    match ParseUint digits with
    | (_, some NumError.ErrSyntax) => (0, some NumError.ErrSyntax)
    | (un, _) =>
      let cutoff : Nat := 2 ^ 63
      if ¬ neg ∧ un ≥ cutoff then ((cutoff : Int) - 1, some NumError.ErrRange)
      else if neg ∧ un > cutoff then (-(cutoff : Int), some NumError.ErrRange)
      else
        let n := int64OfUint64 un
        (if neg then negInt64 n else n, none)

/-! ## HTTP responses and the JSON codec -/

/-- What a handler leaves in the `http.ResponseWriter`: the status code, the
`Content-Type` header and the body. -/
structure Response where
  status : Nat
  contentType : String
  body : String
  deriving DecidableEq, Repr

/-- The function `http.Error(w, msg, code)`: a plain-text response whose body
is the message followed by a newline. -/
def httpError (msg : String) (code : Nat) : Response :=
  { status := code, contentType := "text/plain; charset=utf-8", body := msg ++ "\n" }

def StatusOK : Nat := 200
def StatusCreated : Nat := 201
def StatusBadRequest : Nat := 400
def StatusNotFound : Nat := 404
def StatusInternalServerError : Nat := 500

/-- The two uses the handler makes of `encoding/json`, a library outside the
repository: `Decode` is `json.NewDecoder(r.Body).Decode(&user)` on a zero
`User`, giving the decoded record or the decoding error, and `Encode` is what
`json.NewEncoder(w).Encode(user)` writes to the body. -/
structure Codec where
  Decode : String → Except Err User
  Encode : User → String

/-! ## The repository interface seen by the handler -/

/-- The interface `postgres.UserRepository` over a state `σ`. `Create` and
`Update` take a `*domain.User` and so return the record as they left it. -/
structure UserRepository (σ : Type) where
  Create : σ → User → (User × Option Err) × σ
  GetByID : σ → Int → (Option User × Option Err) × σ
  Update : σ → User → (User × Option Err) × σ

/-- A call of a repository method together with its argument on entry. -/
inductive RepoCall where
  | Create (user : User)
  | GetByID (id : Int)
  | Update (user : User)
  deriving DecidableEq, Repr

/-- The result of serving one request: the response, the repository state
after it and the repository calls made, in order. -/
structure Served (σ : Type) where
  resp : Response
  state : σ
  calls : List RepoCall

/-! ## The handler -/

/-- The handler `userHandler.CreateUser`; `body` is the request body. -/
def CreateUser {σ : Type} (codec : Codec) (userRepo : UserRepository σ) (s : σ)
    (body : String) : Served σ :=
  match codec.Decode body with
  | .error err =>
    let msgErr := "Ошибка при разборе данных пользователя"
    ⟨httpError (msgErr ++ err.Error) StatusBadRequest, s, []⟩
  | .ok user =>
    match userRepo.Create s user with
    | ((_, some err), s') =>
      ⟨httpError ("Ошибка при создании пользователя: " ++ err.Error) StatusInternalServerError,
        s', [RepoCall.Create user]⟩
    | ((user', none), s') =>
      ⟨{ status := StatusCreated, contentType := "application/json",
         body := codec.Encode user' }, s', [RepoCall.Create user]⟩

/-- The handler `userHandler.GetUser`; `id` is `mux.Vars(r)["id"]`. -/
def GetUser {σ : Type} (codec : Codec) (userRepo : UserRepository σ) (s : σ)
    (id : String) : Served σ :=
  match ParseInt id with
  | (_, some _) =>
    let msgErr := "Некорректный ID пользователя"
    ⟨httpError msgErr StatusBadRequest, s, []⟩
  | (userID, none) =>
    match userRepo.GetByID s userID with
    | ((_, some err), s') =>
      ⟨httpError ("Ошибка при получении данных пользователя: " ++ err.Error)
        StatusInternalServerError, s', [RepoCall.GetByID userID]⟩
    | ((none, none), s') =>
      ⟨httpError "Пользователь не найден" StatusNotFound, s', [RepoCall.GetByID userID]⟩
    | ((some user, none), s') =>
      ⟨{ status := StatusOK, contentType := "application/json",
         body := codec.Encode user }, s', [RepoCall.GetByID userID]⟩

/-- The handler `userHandler.UpdateUser`; `id` is `mux.Vars(r)["id"]` and
`body` the request body. -/
def UpdateUser {σ : Type} (codec : Codec) (userRepo : UserRepository σ) (s : σ)
    (id : String) (body : String) : Served σ :=
  match ParseInt id with
  | (_, some _) =>
    let msgErr := "Некорректный ID пользователя"
    ⟨httpError msgErr StatusBadRequest, s, []⟩
  | (userID, none) =>
    match codec.Decode body with
    | .error err =>
      ⟨httpError ("Ошибка при разборе данных пользователя: " ++ err.Error) StatusBadRequest,
        s, []⟩
    | .ok decoded =>
      let user := { decoded with ID := userID }
      match userRepo.Update s user with
      | ((user', none), s') =>
        ⟨{ status := StatusOK, contentType := "application/json",
           body := codec.Encode user' }, s', [RepoCall.Update user]⟩
      | ((_, some err), s') =>
        if err.isErrNoRows then
          ⟨httpError "Пользователь не найден" StatusNotFound, s', [RepoCall.Update user]⟩
        else
          ⟨httpError ("Ошибка при обновлении данных пользователя: " ++ err.Error)
            StatusInternalServerError, s', [RepoCall.Update user]⟩

/-! ## The database handle -/

/-- One row of the table `users`, in the column order of the `SELECT`. -/
structure Row where
  id : Int
  first_name : String
  last_name : String
  email : String
  deriving DecidableEq, Repr

/-- The value `sql.Result` returned by `db.Exec`; the repository only calls
`RowsAffected()`, which gives a count or an error. -/
structure Result where
  RowsAffected : Except Err Int

/-- The handle `*sql.DB` over a state `σ`, reduced to the three statements the
repository sends.
* `QueryRowInsert s first last email` is
  `db.QueryRow("INSERT INTO users (first_name, last_name, email) VALUES ($1, $2, $3) RETURNING id", ...).Scan(&id)`:
  the error of `Scan`, or the value it stored.
* `QueryRowSelect s id` is
  `db.QueryRow("SELECT id, first_name, last_name, email FROM users WHERE id = $1", id).Scan(...)`:
  the error of `Scan` (`sql.ErrNoRows` when the result set is empty), or the
  four values it stored.
* `ExecUpdate s first last email id` is
  `db.Exec("UPDATE users SET first_name = $1, last_name = $2, email = $3 WHERE id = $4", ...)`. -/
structure DB (σ : Type) where
  QueryRowInsert : σ → String → String → String → Except Err Int × σ
  QueryRowSelect : σ → Int → Except Err Row × σ
  ExecUpdate : σ → String → String → String → Int → Except Err Result × σ

/-! ## The PostgreSQL repository -/

namespace userRepository

/-- The method `userRepository.Create`: on success the identity returned by
the store is written into `user.ID`; on failure the record is left as it was. -/
def Create {σ : Type} (db : DB σ) (s : σ) (user : User) : (User × Option Err) × σ :=
  match db.QueryRowInsert s user.FirstName user.LastName user.Email with
  | (.error err, s') => ((user, some err), s')
  | (.ok id, s') => (({ user with ID := id }, none), s')

/-- The method `userRepository.GetByID`. -/
def GetByID {σ : Type} (db : DB σ) (s : σ) (id : Int) : (Option User × Option Err) × σ :=
  match db.QueryRowSelect s id with
  | (.error err, s') =>
    if err.isErrNoRows then ((none, none), s')
    else ((none, some err), s')
  | (.ok row, s') =>
    ((some { ID := row.id, FirstName := row.first_name, LastName := row.last_name,
             Email := row.email }, none), s')

/-- The method `userRepository.Update`; it never writes to `user`. -/
def Update {σ : Type} (db : DB σ) (s : σ) (user : User) : (User × Option Err) × σ :=
  match db.ExecUpdate s user.FirstName user.LastName user.Email user.ID with
  | (.error err, s') => ((user, some err), s')
  | (.ok result, s') =>
    match result.RowsAffected with
    | .error err => ((user, some err), s')
    | .ok rowsAffected =>
      if rowsAffected = 0 then ((user, some Err.ErrNoRows), s')
      else ((user, none), s')

end userRepository

/-- The constructor `postgres.NewUserRepository(db)`. -/
def NewUserRepository {σ : Type} (db : DB σ) : UserRepository σ :=
  { Create := userRepository.Create db
    GetByID := userRepository.GetByID db
    Update := userRepository.Update db }

/-! ## A table model of the store

The relational store is outside the repository. For the round-trip and
idempotence properties it is modelled as the list of the rows of `users` in
insertion order: the insert appends a row under an identity no row carries yet,
the point lookup answers with the first row of the requested identity (or with
`sql.ErrNoRows`), and the update rewrites every row of the requested identity
and reports how many rows the `WHERE` clause matched, changed or not. -/

/-- The rows of `users` in insertion order. Identities are integers without
an upper bound: the model never runs out of fresh ones. -/
abbrev Table := List Row

/-- An identity above every identity in the table, and at least 1. -/
def nextIdentity (t : Table) : Int :=
  t.foldl (fun m r => max m r.id) 0 + 1

/-- The row the `UPDATE` statement leaves in place of `r`. -/
def setColumns (first last email : String) (id : Int) (r : Row) : Row :=
  if r.id = id then { r with first_name := first, last_name := last, email := email } else r

/-- The table model as a database handle. -/
def tableDB : DB Table where
  QueryRowInsert t first last email :=
    let id := nextIdentity t
    (.ok id, t ++ [{ id := id, first_name := first, last_name := last, email := email }])
  QueryRowSelect t id :=
    match t.find? (fun r => decide (r.id = id)) with
    | none => (.error Err.ErrNoRows, t)
    | some r => (.ok r, t)
  ExecUpdate t first last email id :=
    (.ok { RowsAffected := .ok ((t.filter (fun r => decide (r.id = id))).length : Int) },
      t.map (setColumns first last email id))

/-! ## The configuration loader: integer environment variables -/

/-- The function `os.Getenv`: the value of a variable, `""` when it is unset. -/
abbrev Environ := String → String

/-- The function `isSpace` of `fmt/scan.go`. -/
def isSpace (r : Char) : Bool :=
  let c := r.toNat
  if c ≥ 65536 then false
  else
    (0x0009 ≤ c && c ≤ 0x000d) || c = 0x0020 || c = 0x0085 || c = 0x00a0 || c = 0x1680 ||
    (0x2000 ≤ c && c ≤ 0x200a) || (0x2028 ≤ c && c ≤ 0x2029) || c = 0x202f || c = 0x205f ||
    c = 0x3000

/-- The method `ss.SkipSpace` for `Sscanf`, where a newline is not a space:
the input left, or the error it raises. -/
def SkipSpace : List Char → Except String (List Char)
  | [] => .ok []
  | r :: rest =>
    if r = '\r' ∧ rest.head? = some '\n' then SkipSpace rest
    else if r = '\n' then .error "unexpected newline"
    else if !isSpace r then .ok (r :: rest)
    else SkipSpace rest

/-- The call `fmt.Sscanf(value, "%d")` as `getEnvAsInt` writes it, with no
operand after the format: `doScanf` meets the verb, skips leading space and,
since there is no operand left to store into, raises
`too few operands for format '%d'`. The first result is the number of items
stored. -/
def SscanfNoOperands (value : String) : Int × Option Err :=
  match SkipSpace value.toList with
  | .error e => (0, some (Err.other e))
  | .ok _ => (0, some (Err.other "too few operands for format '%d'"))

/-- The helper `getEnv`. -/
def getEnv (env : Environ) (key defaultValue : String) : String :=
  let value := env key
  if value ≠ "" then value else defaultValue

/-- The helper `getEnvAsInt`. -/
def getEnvAsInt (env : Environ) (key : String) (defaultValue : Int) : Int :=
  let value := env key
  if value ≠ "" then
    match SscanfNoOperands value with
    | (i, none) => i
    | (_, some _) => defaultValue
  else defaultValue

/-- The functions of package `strings` the loader calls, a library outside the
repository. -/
structure Strings where
  ToUpper : String → String
  ToLower : String → String

/-- The helper `getEnvAsBool`. -/
def getEnvAsBool (str : Strings) (env : Environ) (key : String) (defaultValue : Bool) : Bool :=
  let value := env key
  if value ≠ "" then decide (str.ToLower value = "true") else defaultValue

structure DBConfig where
  Host : String
  Port : Int
  User : String
  Password : String
  DBName : String
  SSLMode : String
  deriving DecidableEq, Repr

structure ServerConfig where
  Port : String
  deriving DecidableEq, Repr

structure LogConfig where
  Level : String
  FilePath : String
  MaxSize : Int
  MaxBackups : Int
  MaxAge : Int
  Compress : Bool
  Environment : String
  deriving DecidableEq, Repr

structure Config where
  DB : DBConfig
  Server : ServerConfig
  Log : LogConfig
  Env : String
  deriving DecidableEq, Repr

/-- The method `Config.Validate`: `none` is `nil`. -/
def Config.Validate (str : Strings) (c : Config) : Option Err :=
  if c.DB.Host = "" then some (Err.other "хост базы данных не может быть пустым")
  else if c.DB.Port ≤ 0 ∨ c.DB.Port > 65535 then some (Err.other "недопустимый порт базы данных")
  else if c.DB.User = "" then
    some (Err.other "имя пользователя базы данных не может быть пустым")
  else if c.Server.Port = "" then some (Err.other "порт сервера не может быть пустым")
  else if ¬ (str.ToUpper c.Log.Level ∈ ["DEBUG", "INFO", "WARN", "ERROR"]) then
    some (Err.other ("недопустимый уровень логирования: " ++ c.Log.Level))
  else if ¬ (c.Env ∈ ["development", "production", "test"]) then
    some (Err.other ("недопустимое окружение: " ++ c.Env))
  else none

/-- The composite literal that `NewConfig` builds before it validates. -/
def configLiteral (str : Strings) (env : Environ) : Config :=
  { DB :=
      { Host := getEnv env "DB_HOST" "localhost"
        Port := getEnvAsInt env "DB_PORT" 5432
        User := getEnv env "DB_USER" "postgres"
        Password := getEnv env "DB_PASSWORD" "postgres"
        DBName := getEnv env "DB_NAME" "users"
        SSLMode := getEnv env "DB_SSLMODE" "disable" }
    Server := { Port := getEnv env "SERVER_PORT" ":8080" }
    Log :=
      { Level := getEnv env "LOG_LEVEL" "INFO"
        FilePath := getEnv env "LOG_FILE" "logs/app.log"
        MaxSize := getEnvAsInt env "LOG_MAX_SIZE" 10
        MaxBackups := getEnvAsInt env "LOG_MAX_BACKUPS" 5
        MaxAge := getEnvAsInt env "LOG_MAX_AGE" 30
        Compress := getEnvAsBool str env "LOG_COMPRESS" true
        Environment := getEnv env "ENVIRONMENT" "development" }
    Env := getEnv env "ENVIRONMENT" "development" }

/-- The constructor `NewConfig`: the configuration, or the message of the
panic raised when validation fails. -/
def NewConfig (str : Strings) (env : Environ) : Except String Config :=
  let config := configLiteral str env
  match config.Validate str with
  | some err => .error ("Invalid configuration: " ++ err.Error)
  | none => .ok config

/-! ## Decimal literals of the `int64` range

The reading of "a base-10 signed 64-bit integer" that the properties of the
handler are stated against: an optional sign `+` or `-`, then one or more of the
digits `0` to `9`, with a value between -2^63 and 2^63 - 1. -/

/-- One of the characters `0` to `9`. -/
def isDecimalDigit (c : Char) : Bool := decide (48 ≤ c.toNat ∧ c.toNat ≤ 57)

/-- The number that the digits `cs` spell when appended to a numeral of
value `n`. -/
def decimalFold (n : Nat) (cs : List Char) : Nat :=
  cs.foldl (fun a c => a * 10 + (c.toNat - 48)) n

/-- The value of a non-empty run of decimal digits, `none` for anything else. -/
def decimalValue (cs : List Char) : Option Nat :=
  if cs ≠ [] ∧ cs.all isDecimalDigit = true then some (decimalFold 0 cs) else none

/-- The integer a string denotes as a base-10 signed 64-bit integer, `none`
when it is not one. -/
def int64Literal (s : String) : Option Int :=
  match s.toList with
  | [] => none
  | c :: cs =>
    if c = '-' then
      (decimalValue cs).bind (fun v => if v ≤ 2 ^ 63 then some (-(v : Int)) else none)
    else if c = '+' then
      (decimalValue cs).bind (fun v => if v < 2 ^ 63 then some (v : Int) else none)
    else
      (decimalValue (c :: cs)).bind (fun v => if v < 2 ^ 63 then some (v : Int) else none)

/-- The value that `ParseInt` returns with a nil error, `none` when its error
is not nil. -/
def parsedInt (s : String) : Option Int :=
  match ParseInt s with
  | (n, none) => some n
  | (_, some _) => none

/-! ## Fixtures for the concrete instances -/

/-- A stand-in codec for concrete instances: an empty body fails to decode,
any other body decodes into a record that repeats it in the three text fields
and carries the identity 77. -/
def fixtureCodec : Codec where
  Decode body := if body = "" then .error (Err.other "EOF") else .ok ⟨77, body, body, body⟩
  Encode u := toString u.ID ++ "," ++ u.FirstName ++ "," ++ u.LastName ++ "," ++ u.Email

/-- A table with the single row of identity 1. -/
def fixtureTable : Table :=
  [{ id := 1, first_name := "John", last_name := "Doe", email := "john@example.com" }]

/-- Stand-ins for `strings.ToUpper` and `strings.ToLower` on ASCII text. -/
def fixtureStrings : Strings where
  ToUpper s := ⟨s.toList.map Char.toUpper⟩
  ToLower s := ⟨s.toList.map Char.toLower⟩

/-- An environment that sets `DB_PORT` to 6000 and `LOG_MAX_SIZE` to 99. -/
def fixtureEnviron : Environ := fun key =>
  if key = "DB_PORT" then "6000" else if key = "LOG_MAX_SIZE" then "99" else ""

/-! ## Theorems -/

section ParseIntLemmas

/-- Sample runs of the model of `strconv.ParseInt(_, 10, 64)`: signs, leading
zeros, letters, the two ends of the range and the first values beyond them. -/
theorem ParseInt_samples :
    ParseInt "abc" = (0, some NumError.ErrSyntax) ∧
    ParseInt "" = (0, some NumError.ErrSyntax) ∧
    ParseInt "+" = (0, some NumError.ErrSyntax) ∧
    ParseInt "1_000" = (0, some NumError.ErrSyntax) ∧
    ParseInt "12é" = (0, some NumError.ErrSyntax) ∧
    ParseInt "-12" = (-12, none) ∧
    ParseInt "+007" = (7, none) ∧
    ParseInt "9223372036854775807" = (9223372036854775807, none) ∧
    ParseInt "9223372036854775808" = (9223372036854775807, some NumError.ErrRange) ∧
    ParseInt "-9223372036854775808" = (-9223372036854775808, none) ∧
    ParseInt "-9223372036854775809" = (-9223372036854775808, some NumError.ErrRange) ∧
    ParseInt "99999999999999999999999999" = (9223372036854775807, some NumError.ErrRange) := by
  decide

/-- Appending digits never lowers the value. -/
theorem decimalFold_ge (cs : List Char) (n : Nat) : n ≤ decimalFold n cs := by
  induction cs generalizing n with
  | nil => exact le_refl _
  | cons c rest ih =>
    have := ih (n * 10 + (c.toNat - 48))
    simp only [decimalFold, List.foldl_cons] at this ⊢
    omega

/-- One turn of the digit loop on a decimal digit: the accumulator advances
unless the new value leaves the `uint64` range. -/
theorem parseUintLoop_digit (c : Char) (rest : List Char) (n : Nat)
    (hc : isDecimalDigit c = true) (hn : n < 2 ^ 64) :
    parseUintLoop (c :: rest) n =
      if n * 10 + (c.toNat - 48) < 2 ^ 64 then parseUintLoop rest (n * 10 + (c.toNat - 48))
      else (maxUint64, some NumError.ErrRange) := by
  simp only [isDecimalDigit, decide_eq_true_eq] at hc
  have hd : c.toNat - 48 < 10 := by omega
  rw [parseUintLoop]
  simp only [hc, and_self, if_true, maxUint64]
  by_cases h1 : n * 10 + (c.toNat - 48) < 2 ^ 64
  · rw [if_pos h1]
    have h2 : ¬ (c.toNat - 48 ≥ 10) := by omega
    have h3 : ¬ (n ≥ (2 ^ 64 - 1) / 10 + 1) := by norm_num; norm_num at h1; omega
    have h4 : n * 10 % 2 ^ 64 = n * 10 := Nat.mod_eq_of_lt (by omega)
    have h5 : (n * 10 + (c.toNat - 48)) % 2 ^ 64 = n * 10 + (c.toNat - 48) :=
      Nat.mod_eq_of_lt h1
    simp only [h2, h3, if_false, h4, h5]
    rw [if_neg]
    norm_num at h1 ⊢
    omega
  · rw [if_neg h1]
    have h2 : ¬ (c.toNat - 48 ≥ 10) := by omega
    simp only [h2, if_false]
    by_cases h3 : n ≥ (2 ^ 64 - 1) / 10 + 1
    · rw [if_pos h3]
    · rw [if_neg h3]
      have h4 : n * 10 % 2 ^ 64 = n * 10 := Nat.mod_eq_of_lt (by norm_num at h3 ⊢; omega)
      simp only [h4]
      rw [if_pos]
      left
      norm_num at h1 h3 ⊢
      omega

/-- One turn of the digit loop on any other character is a syntax error. -/
theorem parseUintLoop_other (c : Char) (rest : List Char) (n : Nat)
    (hc : isDecimalDigit c = false) :
    parseUintLoop (c :: rest) n = (0, some NumError.ErrSyntax) := by
  simp only [isDecimalDigit, decide_eq_false_iff_not] at hc
  rw [parseUintLoop]
  simp only [hc, if_false]
  split
  · rfl
  · rename_i d hd
    split at hd
    · simp only [Option.some.injEq] at hd
      subst hd
      rw [if_pos (by omega)]
    · cases hd

/-- On a run of decimal digits the loop returns their value, or the range
error when the value leaves the `uint64` range. -/
theorem parseUintLoop_digits (cs : List Char) (n : Nat) (hn : n < 2 ^ 64)
    (hcs : cs.all isDecimalDigit = true) :
    parseUintLoop cs n =
      if decimalFold n cs < 2 ^ 64 then (decimalFold n cs, none)
      else (maxUint64, some NumError.ErrRange) := by
  induction cs generalizing n with
  | nil =>
    simp only [decimalFold, List.foldl_nil]
    rw [if_pos hn, parseUintLoop]
  | cons c rest ih =>
    simp only [List.all_cons, Bool.and_eq_true] at hcs
    rw [parseUintLoop_digit c rest n hcs.1 hn]
    have hfold : decimalFold n (c :: rest) = decimalFold (n * 10 + (c.toNat - 48)) rest := rfl
    rw [hfold]
    by_cases h1 : n * 10 + (c.toNat - 48) < 2 ^ 64
    · rw [if_pos h1, ih _ h1 hcs.2]
    · rw [if_neg h1, if_neg]
      have := decimalFold_ge rest (n * 10 + (c.toNat - 48))
      omega

/-- On a run with a character that is no decimal digit the loop fails, with
the syntax error or, when the range was left first, with the range error. -/
theorem parseUintLoop_not_digits (cs : List Char) (n : Nat) (hn : n < 2 ^ 64)
    (hcs : cs.all isDecimalDigit = false) :
    parseUintLoop cs n = (0, some NumError.ErrSyntax) ∨
    parseUintLoop cs n = (maxUint64, some NumError.ErrRange) := by
  induction cs generalizing n with
  | nil => simp at hcs
  | cons c rest ih =>
    cases hc : isDecimalDigit c with
    | false => exact Or.inl (parseUintLoop_other c rest n hc)
    | true =>
      rw [parseUintLoop_digit c rest n hc hn]
      simp only [List.all_cons, hc, Bool.true_and] at hcs
      by_cases h1 : n * 10 + (c.toNat - 48) < 2 ^ 64
      · rw [if_pos h1]
        exact ih _ h1 hcs
      · rw [if_neg h1]
        exact Or.inr rfl

/-- The three outcomes of `ParseUint` against the value of its argument. -/
theorem ParseUint_decimalValue (cs : List Char) :
    (∀ v, decimalValue cs = some v → v < 2 ^ 64 → ParseUint cs = (v, none)) ∧
    (∀ v, decimalValue cs = some v → ¬ v < 2 ^ 64 →
      ParseUint cs = (maxUint64, some NumError.ErrRange)) ∧
    (decimalValue cs = none → ParseUint cs = (0, some NumError.ErrSyntax) ∨
      ParseUint cs = (maxUint64, some NumError.ErrRange)) := by
  unfold decimalValue ParseUint
  by_cases hnil : cs = []
  · subst hnil
    simp
  · cases hall : cs.all isDecimalDigit with
    | true =>
      have := parseUintLoop_digits cs 0 (by norm_num) hall
      simp only [hnil, if_false, ne_eq, not_false_eq_true, and_self, if_true,
        Option.some.injEq, this]
      refine ⟨?_, ?_, ?_⟩
      · intro v hv hlt
        subst hv
        rw [if_pos hlt]
      · intro v hv hlt
        subst hv
        rw [if_neg hlt]
      · intro h; cases h
    | false =>
      have := parseUintLoop_not_digits cs 0 (by norm_num) hall
      simp only [hnil, if_false, ne_eq, not_false_eq_true, true_and, Bool.false_eq_true]
      refine ⟨?_, ?_, ?_⟩
      · intro v hv; cases hv
      · intro v hv; cases hv
      · intro _; exact this

/-- The tail of `ParseInt` after the sign has been picked off. -/
theorem ParseInt_cons (s : String) (c0 : Char) (tl : List Char) (hs : s.toList = c0 :: tl) :
    ParseInt s =
      match ParseUint (if c0 = '+' then tl else if c0 = '-' then tl else c0 :: tl) with
      | (_, some NumError.ErrSyntax) => (0, some NumError.ErrSyntax)
      | (un, _) =>
        if ¬ (c0 = '-') ∧ un ≥ 2 ^ 63 then (((2 ^ 63 : Nat) : Int) - 1, some NumError.ErrRange)
        else if c0 = '-' ∧ un > 2 ^ 63 then (-((2 ^ 63 : Nat) : Int), some NumError.ErrRange)
        else (if c0 = '-' then negInt64 (int64OfUint64 un) else int64OfUint64 un, none) := by
  unfold ParseInt
  rw [hs]

/-- The range checks that `ParseInt` applies to the result of `ParseUint`,
against the value of the digits, for either sign. -/
theorem signed_tail (neg : Prop) [Decidable neg] (digits : List Char) :
    (match (match ParseUint digits with
      | (_, some NumError.ErrSyntax) => ((0 : Int), some NumError.ErrSyntax)
      | (un, _) =>
        if ¬ neg ∧ un ≥ 2 ^ 63 then (((2 ^ 63 : Nat) : Int) - 1, some NumError.ErrRange)
        else if neg ∧ un > 2 ^ 63 then (-((2 ^ 63 : Nat) : Int), some NumError.ErrRange)
        else (if neg then negInt64 (int64OfUint64 un) else int64OfUint64 un, none)) with
      | (n, none) => some n
      | (_, some _) => none) =
    (decimalValue digits).bind (fun v =>
      if neg then (if v ≤ 2 ^ 63 then some (-(v : Int)) else none)
      else (if v < 2 ^ 63 then some (v : Int) else none)) := by
  obtain ⟨h1, h2, h3⟩ := ParseUint_decimalValue digits
  cases hv : decimalValue digits with
  | none =>
    rcases h3 hv with h | h
    · simp [h]
    · by_cases hneg : neg <;> simp [h, hneg, maxUint64]
  | some v =>
    simp only [Option.some_bind]
    by_cases hlt : v < 2 ^ 64
    · rw [h1 v hv hlt]
      by_cases hneg : neg
      · have hfirst : ¬ (¬ neg ∧ v ≥ 2 ^ 63) := fun h => h.1 hneg
        by_cases hle : v ≤ 2 ^ 63
        · have hsecond : ¬ (neg ∧ v > 2 ^ 63) := fun h => absurd h.2 (by omega)
          simp only [if_neg hfirst, if_neg hsecond, if_pos hneg, if_pos hle]
          congr 1
          unfold negInt64 int64OfUint64
          rw [Nat.mod_eq_of_lt hlt]
          by_cases heq : v = 2 ^ 63
          · subst heq
            norm_num
          · have hv63 : v < 2 ^ 63 := by omega
            rw [if_pos hv63, if_neg]
            omega
        · have hsecond : neg ∧ v > 2 ^ 63 := ⟨hneg, by omega⟩
          simp only [if_neg hfirst, if_pos hsecond, if_pos hneg, if_neg hle]
      · have hsecond : ¬ (neg ∧ v > 2 ^ 63) := fun h => hneg h.1
        by_cases hle : v < 2 ^ 63
        · have hfirst : ¬ (¬ neg ∧ v ≥ 2 ^ 63) := fun h => absurd h.2 (by omega)
          simp only [if_neg hfirst, if_neg hsecond, if_neg hneg, if_pos hle]
          congr 1
          unfold int64OfUint64
          rw [Nat.mod_eq_of_lt hlt, if_pos hle]
        · have hfirst : ¬ neg ∧ v ≥ 2 ^ 63 := ⟨hneg, by omega⟩
          simp only [if_pos hfirst, if_neg hneg, if_neg hle]
    · rw [h2 v hv hlt]
      have hbig : ¬ v ≤ 2 ^ 63 := by omega
      have hbig2 : ¬ v < 2 ^ 63 := by omega
      have hmax : maxUint64 > 2 ^ 63 := by norm_num [maxUint64]
      by_cases hneg : neg
      · have hfirst : ¬ (¬ neg ∧ maxUint64 ≥ 2 ^ 63) := fun h => h.1 hneg
        have hsecond : neg ∧ maxUint64 > 2 ^ 63 := ⟨hneg, hmax⟩
        simp only [if_neg hfirst, if_pos hsecond, if_pos hneg, if_neg hbig]
      · have hfirst : ¬ neg ∧ maxUint64 ≥ 2 ^ 63 := ⟨hneg, le_of_lt hmax⟩
        simp only [if_pos hfirst, if_neg hneg, if_neg hbig2]

/-- The model of `strconv.ParseInt(s, 10, 64)` accepts exactly the decimal
literals of the `int64` range and returns their value. -/
theorem parsedInt_eq_int64Literal (s : String) : parsedInt s = int64Literal s := by
  unfold parsedInt int64Literal
  rcases hs : s.toList with _ | ⟨c0, tl⟩
  · have hnil : ParseInt s = (0, some NumError.ErrSyntax) := by
      unfold ParseInt
      rw [hs]
    rw [hnil]
  · rw [ParseInt_cons s c0 tl hs]
    by_cases hm : c0 = '-'
    · subst hm
      have := signed_tail ('-' = '-') tl
      simpa using this
    · by_cases hp : c0 = '+'
      · subst hp
        have := signed_tail ('+' = '-') tl
        simpa using this
      · have := signed_tail (c0 = '-') (c0 :: tl)
        simp only [hm, hp, if_false] at this ⊢
        exact this

/-- A decimal literal of the `int64` range is parsed to its value. -/
theorem ParseInt_of_int64Literal (s : String) (n : Int) (h : int64Literal s = some n) :
    ParseInt s = (n, none) := by
  have hp := parsedInt_eq_int64Literal s
  rw [h] at hp
  unfold parsedInt at hp
  rcases hq : ParseInt s with ⟨m, err⟩
  rw [hq] at hp
  cases err with
  | none =>
    simp only [Option.some.injEq] at hp
    rw [hp]
  | some e => cases hp

/-- Anything else is rejected by `ParseInt`. -/
theorem ParseInt_of_not_int64Literal (s : String) (h : int64Literal s = none) :
    ∃ (m : Int) (err : NumError), ParseInt s = (m, some err) := by
  have hp := parsedInt_eq_int64Literal s
  rw [h] at hp
  unfold parsedInt at hp
  rcases hq : ParseInt s with ⟨m, err⟩
  rw [hq] at hp
  cases err with
  | none => cases hp
  | some e => exact ⟨m, e, rfl⟩

end ParseIntLemmas

section TableLemmas

/-- The running maximum of `nextIdentity` bounds its start value and every
identity it has passed. -/
theorem foldl_max_id_bounds (t : Table) (m : Int) :
    m ≤ t.foldl (fun m r => max m r.id) m ∧
    ∀ r ∈ t, r.id ≤ t.foldl (fun m r => max m r.id) m := by
  induction t generalizing m with
  | nil => simp
  | cons a rest ih =>
    obtain ⟨h1, h2⟩ := ih (max m a.id)
    refine ⟨le_trans (le_max_left _ _) h1, ?_⟩
    intro r hr
    rcases List.mem_cons.mp hr with h | h
    · subst h
      exact le_trans (le_max_right _ _) h1
    · exact h2 r h

/-- No row of the table carries the identity the next insert hands out. -/
theorem nextIdentity_fresh (t : Table) : ∀ r ∈ t, r.id ≠ nextIdentity t := by
  intro r hr h
  have := (foldl_max_id_bounds t 0).2 r hr
  unfold nextIdentity at h
  omega

/-- The `UPDATE` statement keeps the identity of every row. -/
theorem setColumns_id (first last email : String) (id : Int) (r : Row) :
    (setColumns first last email id r).id = r.id := by
  unfold setColumns
  split <;> rfl

/-- Rewriting a row twice with the same values is rewriting it once. -/
theorem setColumns_twice (first last email : String) (id : Int) (r : Row) :
    setColumns first last email id (setColumns first last email id r)
      = setColumns first last email id r := by
  unfold setColumns
  split <;> simp_all

/-- The `UPDATE` statement matches as many rows after it ran as before. -/
theorem matched_after_update (first last email : String) (id : Int) (t : Table) :
    ((t.map (setColumns first last email id)).filter (fun r => decide (r.id = id))).length
      = (t.filter (fun r => decide (r.id = id))).length := by
  induction t with
  | nil => rfl
  | cons a rest ih =>
    simp only [List.map_cons, List.filter_cons, setColumns_id]
    split <;> simp [ih]

/-- The `UPDATE` statement leaves a table without the identity as it is. -/
theorem update_without_match (first last email : String) (id : Int) (t : Table)
    (h : ∀ r ∈ t, r.id ≠ id) : t.map (setColumns first last email id) = t := by
  induction t with
  | nil => rfl
  | cons a rest ih =>
    have ha : a.id ≠ id := h a (List.mem_cons_self _ _)
    have hrest : ∀ r ∈ rest, r.id ≠ id := fun r hr => h r (List.mem_cons_of_mem _ hr)
    simp [setColumns, ha, ih hrest]

end TableLemmas

section Handler

variable {σ : Type}

/-- C1. GetUser, for a path id that is a base-10 signed 64-bit integer of
value `n`, calls `GetByID` exactly once, with `n`, and answers by its result: a
non-nil error gives 500 (whatever the record), a nil record with a nil error
gives 404, and a record with a nil error gives 200 with the body the JSON
encoder writes for exactly that record. -/
theorem GetUser_answers_by_repository_result (codec : Codec) (userRepo : UserRepository σ)
    (s : σ) (id : String) (n : Int) (hid : int64Literal id = some n) :
    (GetUser codec userRepo s id).calls = [RepoCall.GetByID n] ∧
    (GetUser codec userRepo s id).state = (userRepo.GetByID s n).2 ∧
    (∀ (rec : Option User) (err : Err), (userRepo.GetByID s n).1 = (rec, some err) →
      (GetUser codec userRepo s id).resp.status = 500) ∧
    ((userRepo.GetByID s n).1 = (none, none) →
      (GetUser codec userRepo s id).resp.status = 404) ∧
    (∀ user : User, (userRepo.GetByID s n).1 = (some user, none) →
      (GetUser codec userRepo s id).resp.status = 200 ∧
      (GetUser codec userRepo s id).resp.body = codec.Encode user) := by
  have hparse := ParseInt_of_int64Literal id n hid
  simp only [GetUser, hparse]
  rcases hget : userRepo.GetByID s n with ⟨⟨rec, err⟩, s'⟩
  cases err <;> cases rec <;>
    simp [httpError, StatusOK, StatusNotFound, StatusInternalServerError]

/-- Instance of C1: `GET /users/1` on the table model holding the row 1. -/
theorem GetUser_answers_by_repository_result_witness :
    int64Literal "1" = some 1 ∧
    (GetUser fixtureCodec (NewUserRepository tableDB) fixtureTable "1").calls
      = [RepoCall.GetByID 1] :=
  ⟨by decide,
   (GetUser_answers_by_repository_result fixtureCodec (NewUserRepository tableDB)
      fixtureTable "1" 1 (by decide)).1⟩

/-- C2. The status code of UpdateUser is decided in this order: a path id that
is not a base-10 signed 64-bit integer gives 400; otherwise a body that does not
decode gives 400; otherwise an error of `Update` that is or wraps
`sql.ErrNoRows` gives 404; otherwise any other error of `Update` gives 500;
otherwise the status is 200. -/
theorem UpdateUser_status_order (codec : Codec) (userRepo : UserRepository σ) (s : σ)
    (id body : String) :
    (UpdateUser codec userRepo s id body).resp.status =
      match int64Literal id with
      | none => 400
      | some p =>
        match codec.Decode body with
        | .error _ => 400
        | .ok decoded =>
          match (userRepo.Update s { decoded with ID := p }).1.2 with
          | some err => if err.isErrNoRows then 404 else 500
          | none => 200 := by
  cases hid : int64Literal id with
  | none =>
    obtain ⟨m, e, hp⟩ := ParseInt_of_not_int64Literal id hid
    simp [UpdateUser, hp, httpError, StatusBadRequest]
  | some p =>
    have hp := ParseInt_of_int64Literal id p hid
    cases hd : codec.Decode body with
    | error e => simp [UpdateUser, hp, hd, httpError, StatusBadRequest]
    | ok decoded =>
      rcases hu : userRepo.Update s { decoded with ID := p } with ⟨⟨u', err⟩, s'⟩
      cases err with
      | none => simp [UpdateUser, hp, hd, hu, StatusOK]
      | some e =>
        cases he : e.isErrNoRows <;>
          simp [UpdateUser, hp, hd, hu, he, httpError, StatusNotFound, StatusInternalServerError]

/-- Instance of C2: `PUT /users/999` on the table model holding only the row 1
is answered 404. -/
theorem UpdateUser_status_order_witness :
    (UpdateUser fixtureCodec (NewUserRepository tableDB) fixtureTable "999" "Jane").resp.status
      = 404 :=
  (UpdateUser_status_order fixtureCodec (NewUserRepository tableDB) fixtureTable "999"
    "Jane").trans (by rfl)

/-- C3. In UpdateUser, for a path id of value `p` and a body decoded to `b`
(whatever id `b` carries), the one repository call is `Update` on the record
with id `p` and the three text fields of `b`; when `Update` returns nil the
response is 200 with the encoding of the record as `Update` left it; and with
the PostgreSQL repository, over any database handle, that record is the one
with id `p` and the three text fields of `b`. -/
theorem UpdateUser_path_id_overrides_body_id (codec : Codec) (userRepo : UserRepository σ)
    (s : σ) (db : DB σ) (id body : String) (p : Int) (b : User)
    (hid : int64Literal id = some p) (hdecode : codec.Decode body = .ok b) :
    (UpdateUser codec userRepo s id body).calls
      = [RepoCall.Update ⟨p, b.FirstName, b.LastName, b.Email⟩] ∧
    (∀ left : User, (userRepo.Update s ⟨p, b.FirstName, b.LastName, b.Email⟩).1 = (left, none) →
      (UpdateUser codec userRepo s id body).resp
        = ⟨200, "application/json", codec.Encode left⟩) ∧
    ((userRepository.Update db s ⟨p, b.FirstName, b.LastName, b.Email⟩).1.2 = none →
      (UpdateUser codec (NewUserRepository db) s id body).resp
        = ⟨200, "application/json", codec.Encode ⟨p, b.FirstName, b.LastName, b.Email⟩⟩) := by
  have hparse := ParseInt_of_int64Literal id p hid
  refine ⟨?_, ?_, ?_⟩
  · rcases hu : userRepo.Update s ⟨p, b.FirstName, b.LastName, b.Email⟩ with ⟨⟨u', err⟩, s'⟩
    cases err with
    | none => simp [UpdateUser, hparse, hdecode, hu]
    | some e => cases he : e.isErrNoRows <;> simp [UpdateUser, hparse, hdecode, hu, he]
  · intro left h
    rcases hu : userRepo.Update s ⟨p, b.FirstName, b.LastName, b.Email⟩ with ⟨⟨u', err⟩, s'⟩
    rw [hu] at h
    simp only [Prod.mk.injEq] at h
    obtain ⟨h1, h2⟩ := h
    subst h1 h2
    simp [UpdateUser, hparse, hdecode, hu, StatusOK]
  · intro h
    have hleft : (userRepository.Update db s ⟨p, b.FirstName, b.LastName, b.Email⟩).1.1
        = ⟨p, b.FirstName, b.LastName, b.Email⟩ := by
      unfold userRepository.Update
      split
      · rfl
      · split
        · rfl
        · split <;> rfl
    rcases hu : userRepository.Update db s ⟨p, b.FirstName, b.LastName, b.Email⟩
      with ⟨⟨u', err⟩, s'⟩
    rw [hu] at h hleft
    simp only at h hleft
    subst h hleft
    simp [UpdateUser, NewUserRepository, hparse, hdecode, hu, StatusOK]

/-- Instance of C3: `PUT /users/1` with a body that carries the id 77. -/
theorem UpdateUser_path_id_overrides_body_id_witness :
    fixtureCodec.Decode "Jane" = .ok ⟨77, "Jane", "Jane", "Jane"⟩ ∧
    (UpdateUser fixtureCodec (NewUserRepository tableDB) fixtureTable "1" "Jane").calls
      = [RepoCall.Update ⟨1, "Jane", "Jane", "Jane"⟩] :=
  ⟨rfl,
   (UpdateUser_path_id_overrides_body_id fixtureCodec (NewUserRepository tableDB) fixtureTable
      tableDB "1" "Jane" 1 ⟨77, "Jane", "Jane", "Jane"⟩ (by decide) rfl).1⟩

/-- C4. For a path id that is not a base-10 signed 64-bit integer, GetUser and
UpdateUser both answer 400, make no repository call and leave the repository
state as it was, whatever the body; `"abc"`, the empty string and the decimal
numbers just outside the `int64` range are such ids. -/
theorem malformed_id_is_400_without_repository (codec : Codec) (userRepo : UserRepository σ)
    (s : σ) (id body : String) (hid : int64Literal id = none) :
    ((GetUser codec userRepo s id).resp.status = 400 ∧
      (GetUser codec userRepo s id).calls = [] ∧
      (GetUser codec userRepo s id).state = s) ∧
    ((UpdateUser codec userRepo s id body).resp.status = 400 ∧
      (UpdateUser codec userRepo s id body).calls = [] ∧
      (UpdateUser codec userRepo s id body).state = s) ∧
    int64Literal "abc" = none ∧ int64Literal "" = none ∧
    int64Literal "9223372036854775808" = none ∧
    int64Literal "-9223372036854775809" = none := by
  obtain ⟨m, e, hp⟩ := ParseInt_of_not_int64Literal id hid
  refine ⟨?_, ?_, by decide, by decide, by decide, by decide⟩
  · simp [GetUser, hp, httpError, StatusBadRequest]
  · simp [UpdateUser, hp, httpError, StatusBadRequest]

/-- Instance of C4: the path id `"abc"` on the table model. -/
theorem malformed_id_is_400_without_repository_witness :
    int64Literal "abc" = none ∧
    (GetUser fixtureCodec (NewUserRepository tableDB) fixtureTable "abc").resp.status = 400 ∧
    (UpdateUser fixtureCodec (NewUserRepository tableDB) fixtureTable "abc" "Jane").calls = [] :=
  ⟨by decide,
   (malformed_id_is_400_without_repository fixtureCodec (NewUserRepository tableDB) fixtureTable
      "abc" "Jane" (by decide)).1.1,
   (malformed_id_is_400_without_repository fixtureCodec (NewUserRepository tableDB) fixtureTable
      "abc" "Jane" (by decide)).2.1.2.1⟩

/-- C5. CreateUser: a body that fails to decode gives 400 and no repository
call; a body that decodes is passed to `Create` once, and then an error of
`Create` gives 500 with a body that contains the text of that error, while a
nil error gives 201 with the encoding of the record as `Create` left it; with
the PostgreSQL repository, over any database handle, that record carries the
identity the store returned and the three text fields of the decoded body. -/
theorem CreateUser_response (codec : Codec) (userRepo : UserRepository σ) (s : σ) (db : DB σ)
    (body : String) :
    (∀ err : Err, codec.Decode body = .error err →
      (CreateUser codec userRepo s body).resp.status = 400 ∧
      (CreateUser codec userRepo s body).calls = [] ∧
      (CreateUser codec userRepo s body).state = s) ∧
    (∀ user : User, codec.Decode body = .ok user →
      (CreateUser codec userRepo s body).calls = [RepoCall.Create user] ∧
      (∀ (left : User) (err : Err), (userRepo.Create s user).1 = (left, some err) →
        (CreateUser codec userRepo s body).resp.status = 500 ∧
        ∃ before after : String,
          (CreateUser codec userRepo s body).resp.body = before ++ err.Error ++ after) ∧
      (∀ left : User, (userRepo.Create s user).1 = (left, none) →
        (CreateUser codec userRepo s body).resp
          = ⟨201, "application/json", codec.Encode left⟩)) ∧
    (∀ (user : User) (id : Int) (s' : σ), codec.Decode body = .ok user →
      db.QueryRowInsert s user.FirstName user.LastName user.Email = (.ok id, s') →
      (CreateUser codec (NewUserRepository db) s body).resp
        = ⟨201, "application/json",
            codec.Encode ⟨id, user.FirstName, user.LastName, user.Email⟩⟩) := by
  refine ⟨?_, ?_, ?_⟩
  · intro err hd
    simp [CreateUser, hd, httpError, StatusBadRequest]
  · intro user hd
    rcases hc : userRepo.Create s user with ⟨⟨u', err⟩, s'⟩
    cases err with
    | none =>
      refine ⟨by simp [CreateUser, hd, hc], ?_, ?_⟩
      · intro _ _ h; simp at h
      · intro left h
        simp only [Prod.mk.injEq, and_true] at h
        subst h
        simp [CreateUser, hd, hc, StatusCreated]
    | some e =>
      refine ⟨by simp [CreateUser, hd, hc], ?_, ?_⟩
      · intro left err h
        simp only [Prod.mk.injEq, Option.some.injEq] at h
        obtain ⟨_, h2⟩ := h
        subst h2
        refine ⟨by simp [CreateUser, hd, hc, httpError, StatusInternalServerError], ?_⟩
        exact ⟨"Ошибка при создании пользователя: ", "\n",
          by simp [CreateUser, hd, hc, httpError]⟩
      · intro _ h; simp at h
  · intro user id s' hd hq
    simp [CreateUser, NewUserRepository, userRepository.Create, hd, hq, StatusCreated]

/-- Instance of C5: an empty body, and a body that decodes, on the table model. -/
theorem CreateUser_response_witness :
    fixtureCodec.Decode "" = .error (Err.other "EOF") ∧
    (CreateUser fixtureCodec (NewUserRepository tableDB) fixtureTable "").resp.status = 400 ∧
    (CreateUser fixtureCodec (NewUserRepository tableDB) fixtureTable "Ann").resp
      = ⟨201, "application/json", fixtureCodec.Encode ⟨2, "Ann", "Ann", "Ann"⟩⟩ :=
  ⟨rfl,
   ((CreateUser_response fixtureCodec (NewUserRepository tableDB) fixtureTable tableDB "").1
      (Err.other "EOF") rfl).1,
   (CreateUser_response fixtureCodec (NewUserRepository tableDB) fixtureTable tableDB "Ann").2.2
      ⟨77, "Ann", "Ann", "Ann"⟩ 2 _ rfl rfl⟩

end Handler

section Repository

variable {σ : Type}

/-- C6. Round trip over the table model: for every table and every payload,
`Create` returns nil and writes back an identity no row carried, and `GetByID`
on that identity then returns, with a nil error, the record with that identity
and the first name, last name and email of the payload. -/
theorem Create_then_GetByID (t : Table) (user : User) :
    (userRepository.Create tableDB t user).1.2 = none ∧
    (∀ r ∈ t, r.id ≠ (userRepository.Create tableDB t user).1.1.ID) ∧
    (userRepository.GetByID tableDB (userRepository.Create tableDB t user).2
        (userRepository.Create tableDB t user).1.1.ID).1
      = (some ⟨(userRepository.Create tableDB t user).1.1.ID, user.FirstName, user.LastName,
          user.Email⟩, none) := by
  have hfresh := nextIdentity_fresh t
  have hnone : t.find? (fun r => decide (r.id = nextIdentity t)) = none := by
    rw [List.find?_eq_none]
    intro r hr
    simpa using hfresh r hr
  refine ⟨rfl, hfresh, ?_⟩
  simp [userRepository.Create, userRepository.GetByID, tableDB, hnone]

/-- Instance of C6: a create on the fixture table is handed the identity 2 and
is read back under it. -/
theorem Create_then_GetByID_witness :
    (userRepository.GetByID tableDB
        (userRepository.Create tableDB fixtureTable ⟨0, "Ann", "Lee", "ann@example.com"⟩).2 2).1
      = (some ⟨2, "Ann", "Lee", "ann@example.com"⟩, none) :=
  (Create_then_GetByID fixtureTable ⟨0, "Ann", "Lee", "ann@example.com"⟩).2.2

/-- C7. Update is idempotent over the table model: the second of two equal
updates leaves the table of the first and returns the outcome of the first;
on an identity the table holds both return nil and every row of that identity
then stores the three values; on an identity it lacks both return
`sql.ErrNoRows` and the table stays as it was. -/
theorem Update_idempotent (t : Table) (user : User) :
    (userRepository.Update tableDB (userRepository.Update tableDB t user).2 user).2
      = (userRepository.Update tableDB t user).2 ∧
    (userRepository.Update tableDB (userRepository.Update tableDB t user).2 user).1
      = (userRepository.Update tableDB t user).1 ∧
    ((∃ r ∈ t, r.id = user.ID) →
      (userRepository.Update tableDB t user).1 = (user, none) ∧
      (userRepository.Update tableDB (userRepository.Update tableDB t user).2 user).1
        = (user, none) ∧
      ∀ r ∈ (userRepository.Update tableDB t user).2, r.id = user.ID →
        r = ⟨user.ID, user.FirstName, user.LastName, user.Email⟩) ∧
    ((∀ r ∈ t, r.id ≠ user.ID) →
      (userRepository.Update tableDB t user).1 = (user, some Err.ErrNoRows) ∧
      (userRepository.Update tableDB (userRepository.Update tableDB t user).2 user).1
        = (user, some Err.ErrNoRows) ∧
      (userRepository.Update tableDB t user).2 = t ∧
      (userRepository.Update tableDB (userRepository.Update tableDB t user).2 user).2 = t) := by
  have hstate : ∀ t' : Table, (userRepository.Update tableDB t' user).2
      = t'.map (setColumns user.FirstName user.LastName user.Email user.ID) := by
    intro t'
    simp only [userRepository.Update, tableDB]
    split <;> rfl
  have hout : ∀ t' : Table, (userRepository.Update tableDB t' user).1
      = if (t'.filter (fun r => decide (r.id = user.ID))).length = 0
        then (user, some Err.ErrNoRows) else (user, none) := by
    intro t'
    simp only [userRepository.Update, tableDB]
    by_cases h : (t'.filter (fun r => decide (r.id = user.ID))).length = 0
    · rw [if_pos h, if_pos (by exact_mod_cast h)]
    · rw [if_neg h, if_neg (by exact_mod_cast h)]
  have hmap : (t.map (setColumns user.FirstName user.LastName user.Email user.ID)).map
      (setColumns user.FirstName user.LastName user.Email user.ID)
      = t.map (setColumns user.FirstName user.LastName user.Email user.ID) := by
    rw [List.map_map]
    apply List.map_congr_left
    intro r _
    exact setColumns_twice _ _ _ _ r
  refine ⟨?_, ?_, ?_, ?_⟩
  · rw [hstate, hstate, hmap]
  · rw [hout, hout, hstate, matched_after_update]
  · rintro ⟨r, hr, hid⟩
    have hpos : (t.filter (fun r => decide (r.id = user.ID))).length ≠ 0 := by
      intro h0
      have hnil := List.length_eq_zero.mp h0
      rw [List.filter_eq_nil_iff] at hnil
      exact hnil r hr (by simpa using hid)
    refine ⟨?_, ?_, ?_⟩
    · rw [hout, if_neg hpos]
    · rw [hout, hstate, matched_after_update, if_neg hpos]
    · intro r' hr' hid'
      rw [hstate] at hr'
      obtain ⟨r0, _, rfl⟩ := List.mem_map.mp hr'
      rw [setColumns_id] at hid'
      simp [setColumns, hid']
  · intro hmiss
    have hzero : (t.filter (fun r => decide (r.id = user.ID))).length = 0 := by
      rw [List.length_eq_zero, List.filter_eq_nil_iff]
      intro r hr
      simpa using hmiss r hr
    have hsame := update_without_match user.FirstName user.LastName user.Email user.ID t hmiss
    refine ⟨?_, ?_, ?_, ?_⟩
    · rw [hout, if_pos hzero]
    · rw [hout, hstate, matched_after_update, if_pos hzero]
    · rw [hstate, hsame]
    · rw [hstate, hstate, hsame, hsame]

/-- Instance of C7: updating the row 1 of the fixture table. -/
theorem Update_idempotent_witness :
    (∃ r ∈ fixtureTable, r.id = 1) ∧
    (userRepository.Update tableDB fixtureTable ⟨1, "Jane", "Doe", "jane@example.com"⟩).1
      = (⟨1, "Jane", "Doe", "jane@example.com"⟩, none) :=
  ⟨⟨_, List.mem_cons_self _ _, rfl⟩,
   ((Update_idempotent fixtureTable ⟨1, "Jane", "Doe", "jane@example.com"⟩).2.2.1
      ⟨_, List.mem_cons_self _ _, rfl⟩).1⟩

/-- C8. The result of `userRepository.Update` is decided by the answer of the
store to the one `UPDATE` statement: an error of `Exec` is returned as it is;
otherwise an error of `RowsAffected` is returned as it is; otherwise the count
zero gives `sql.ErrNoRows`; otherwise every non-zero count gives nil. Nil is
returned only on a non-zero count, and on the table model an identity that no
row carries gives `sql.ErrNoRows` and leaves the table as it was. -/
theorem Update_result_by_store_answer (db : DB σ) (s : σ) (user : User) :
    (∀ (err : Err) (s' : σ),
      db.ExecUpdate s user.FirstName user.LastName user.Email user.ID = (.error err, s') →
      userRepository.Update db s user = ((user, some err), s')) ∧
    (∀ (res : Result) (err : Err) (s' : σ),
      db.ExecUpdate s user.FirstName user.LastName user.Email user.ID = (.ok res, s') →
      res.RowsAffected = .error err →
      userRepository.Update db s user = ((user, some err), s')) ∧
    (∀ (res : Result) (s' : σ),
      db.ExecUpdate s user.FirstName user.LastName user.Email user.ID = (.ok res, s') →
      res.RowsAffected = .ok 0 →
      userRepository.Update db s user = ((user, some Err.ErrNoRows), s')) ∧
    (∀ (res : Result) (n : Int) (s' : σ),
      db.ExecUpdate s user.FirstName user.LastName user.Email user.ID = (.ok res, s') →
      res.RowsAffected = .ok n → n ≠ 0 →
      userRepository.Update db s user = ((user, none), s')) ∧
    ((userRepository.Update db s user).1.2 = none →
      ∃ (res : Result) (n : Int) (s' : σ),
        db.ExecUpdate s user.FirstName user.LastName user.Email user.ID = (.ok res, s') ∧
        res.RowsAffected = .ok n ∧ n ≠ 0) ∧
    (∀ t : Table, (∀ r ∈ t, r.id ≠ user.ID) →
      userRepository.Update tableDB t user = ((user, some Err.ErrNoRows), t)) := by
  refine ⟨?_, ?_, ?_, ?_, ?_, ?_⟩
  · intro err s' h
    simp [userRepository.Update, h]
  · intro res err s' h hr
    simp [userRepository.Update, h, hr]
  · intro res s' h hr
    simp [userRepository.Update, h, hr]
  · intro res n s' h hr hn
    simp [userRepository.Update, h, hr, hn]
  · intro hnil
    rcases h : db.ExecUpdate s user.FirstName user.LastName user.Email user.ID with ⟨ans, s'⟩
    cases ans with
    | error err => simp [userRepository.Update, h] at hnil
    | ok res =>
      cases hr : res.RowsAffected with
      | error err => simp [userRepository.Update, h, hr] at hnil
      | ok n =>
        by_cases hn : n = 0
        · simp [userRepository.Update, h, hr, hn] at hnil
        · exact ⟨res, n, s', rfl, hr, hn⟩
  · intro t hmiss
    have hzero : (t.filter (fun r => decide (r.id = user.ID))).length = 0 := by
      rw [List.length_eq_zero, List.filter_eq_nil_iff]
      intro r hr
      simpa using hmiss r hr
    have hsame := update_without_match user.FirstName user.LastName user.Email user.ID t hmiss
    simp only [userRepository.Update, tableDB]
    rw [if_pos (by exact_mod_cast hzero), hsame]

/-- Instance of C8: `Update` of the identity 999 on the fixture table. -/
theorem Update_result_by_store_answer_witness :
    (∀ r ∈ fixtureTable, r.id ≠ 999) ∧
    userRepository.Update tableDB fixtureTable ⟨999, "Jane", "Doe", "jane@example.com"⟩
      = ((⟨999, "Jane", "Doe", "jane@example.com"⟩, some Err.ErrNoRows), fixtureTable) :=
  ⟨by decide,
   (Update_result_by_store_answer tableDB fixtureTable
      ⟨999, "Jane", "Doe", "jane@example.com"⟩).2.2.2.2.2 fixtureTable (by decide)⟩

/-- C9. `userRepository.GetByID` returns one of three outcomes for every id and
every answer of the store: a row gives the record with the id, first name, last
name and email of that row and a nil error; an error that is or wraps
`sql.ErrNoRows` gives a nil record and a nil error; any other error gives a nil
record and that error, unchanged. A record and an error are never returned
together, and the nil-nil outcome arises only from an error that is or wraps
`sql.ErrNoRows`. -/
theorem GetByID_three_outcomes (db : DB σ) (s : σ) (id : Int) :
    (∀ (row : Row) (s' : σ), db.QueryRowSelect s id = (.ok row, s') →
      userRepository.GetByID db s id
        = ((some ⟨row.id, row.first_name, row.last_name, row.email⟩, none), s')) ∧
    (∀ s' : σ, db.QueryRowSelect s id = (.error Err.ErrNoRows, s') →
      userRepository.GetByID db s id = ((none, none), s')) ∧
    (∀ (err : Err) (s' : σ), db.QueryRowSelect s id = (.error err, s') →
      err.isErrNoRows = true → userRepository.GetByID db s id = ((none, none), s')) ∧
    (∀ (err : Err) (s' : σ), db.QueryRowSelect s id = (.error err, s') →
      err.isErrNoRows = false → userRepository.GetByID db s id = ((none, some err), s')) ∧
    (∀ (user : User) (err : Err), (userRepository.GetByID db s id).1 ≠ (some user, some err)) ∧
    ((userRepository.GetByID db s id).1 = (none, none) →
      ∃ (err : Err) (s' : σ), db.QueryRowSelect s id = (.error err, s') ∧
        err.isErrNoRows = true) := by
  refine ⟨?_, ?_, ?_, ?_, ?_, ?_⟩
  · intro row s' h
    simp [userRepository.GetByID, h]
  · intro s' h
    simp [userRepository.GetByID, h, Err.isErrNoRows]
  · intro err s' h he
    simp [userRepository.GetByID, h, he]
  · intro err s' h he
    simp [userRepository.GetByID, h, he]
  · intro user err
    rcases h : db.QueryRowSelect s id with ⟨ans, s'⟩
    cases ans with
    | error e => cases he : e.isErrNoRows <;> simp [userRepository.GetByID, h, he]
    | ok row => simp [userRepository.GetByID, h]
  · intro hnil
    rcases h : db.QueryRowSelect s id with ⟨ans, s'⟩
    cases ans with
    | error e =>
      cases he : e.isErrNoRows
      · simp [userRepository.GetByID, h, he] at hnil
      · exact ⟨e, s', rfl, he⟩
    | ok row => simp [userRepository.GetByID, h] at hnil

/-- Instance of C9: the lookups of the identities 1 and 999 on the fixture
table. -/
theorem GetByID_three_outcomes_witness :
    tableDB.QueryRowSelect fixtureTable 999 = (.error Err.ErrNoRows, fixtureTable) ∧
    userRepository.GetByID tableDB fixtureTable 999 = ((none, none), fixtureTable) ∧
    userRepository.GetByID tableDB fixtureTable 1
      = ((some ⟨1, "John", "Doe", "john@example.com"⟩, none), fixtureTable) :=
  ⟨rfl,
   (GetByID_three_outcomes tableDB fixtureTable 999).2.1 fixtureTable rfl,
   (GetByID_three_outcomes tableDB fixtureTable 1).1
      ⟨1, "John", "Doe", "john@example.com"⟩ fixtureTable rfl⟩

end Repository

section Configuration

/-- The scan `fmt.Sscanf(value, "%d")` without operands fails on every
input. -/
theorem SscanfNoOperands_fails (value : String) :
    ∃ err : Err, SscanfNoOperands value = (0, some err) := by
  unfold SscanfNoOperands
  split
  · exact ⟨_, rfl⟩
  · exact ⟨_, rfl⟩

/-- C10. The helper `getEnvAsInt env key d` returns `d` whatever the variable
holds, so the literal that `NewConfig` builds has `DB.Port`, `Log.MaxSize`,
`Log.MaxBackups` and `Log.MaxAge` equal to 5432, 10, 5 and 30 in every
environment, and so has every configuration that `NewConfig` returns. -/
theorem getEnvAsInt_returns_default (str : Strings) (env : Environ) (key : String) (d : Int) :
    getEnvAsInt env key d = d ∧
    ((configLiteral str env).DB.Port = 5432 ∧ (configLiteral str env).Log.MaxSize = 10 ∧
      (configLiteral str env).Log.MaxBackups = 5 ∧ (configLiteral str env).Log.MaxAge = 30) ∧
    (∀ c : Config, NewConfig str env = .ok c →
      c.DB.Port = 5432 ∧ c.Log.MaxSize = 10 ∧ c.Log.MaxBackups = 5 ∧ c.Log.MaxAge = 30) := by
  have hd : ∀ (k : String) (v : Int), getEnvAsInt env k v = v := by
    intro k v
    unfold getEnvAsInt
    obtain ⟨err, herr⟩ := SscanfNoOperands_fails (env k)
    simp only [herr]
    split <;> rfl
  have hlit : (configLiteral str env).DB.Port = 5432 ∧ (configLiteral str env).Log.MaxSize = 10 ∧
      (configLiteral str env).Log.MaxBackups = 5 ∧ (configLiteral str env).Log.MaxAge = 30 := by
    simp [configLiteral, hd]
  refine ⟨hd key d, hlit, ?_⟩
  intro c hc
  unfold NewConfig at hc
  simp only at hc
  split at hc
  · cases hc
  · cases hc
    exact hlit

/-- Instance of C10: with `DB_PORT=6000` and `LOG_MAX_SIZE=99` set, `NewConfig`
returns a configuration and its port is still 5432. -/
theorem getEnvAsInt_returns_default_witness :
    NewConfig fixtureStrings fixtureEnviron
      = .ok (configLiteral fixtureStrings fixtureEnviron) ∧
    (configLiteral fixtureStrings fixtureEnviron).DB.Port = 5432 :=
  ⟨by rfl,
   ((getEnvAsInt_returns_default fixtureStrings fixtureEnviron "DB_PORT" 5432).2.2
      (configLiteral fixtureStrings fixtureEnviron) (by rfl)).1⟩

end Configuration

end GravitumTest
